import Mathlib

/-!
# Verification of Android HAL glue code

Shallow embedding of three source files:

* `automotive/vehicle/aidl/impl/fake_impl/hardware/src/FakeVehicleHardware.cpp`
  (namespace `FakeHw`),
* `automotive/vehicle/2.0/default/common/include/vhal_v2_0/VehicleConnector.h`
  (namespace `V2_0`),
* `biometrics/fingerprint/aidl/default/Fingerprint.cpp` (namespace `Fingerprint`).

Stateful C++ is embedded by explicit state passing.  Every call that leaves the
adapter (into the property store, into a registered callback, into the logger)
is appended to an observation trace carried by the adapter state, so that
statements such as "a seed write is issued" become statements about that trace.
-/

/-! ## Shared value types (AIDL parcelables used by the vehicle code) -/

/-- Status codes of the vehicle HAL; the code under study only ever returns `OK`. -/
inductive StatusCode where
  | OK
  | TRY_AGAIN
  | INVALID_ARG
  | NOT_AVAILABLE
  | ACCESS_DENIED
  | INTERNAL_ERROR
  deriving DecidableEq, Repr

/-- Status of a stored property value. -/
inductive VehiclePropertyStatus where
  | AVAILABLE
  | UNAVAILABLE
  | ERROR
  deriving DecidableEq, Repr

/-- Payload of a property value.  Floats are carried as their bit patterns: the
code never computes with them, and the only comparison it makes is against the
default-constructed payload, whose vectors are all empty. -/
structure RawPropValues where
  int32Values : List Int := []
  floatValues : List Nat := []
  int64Values : List Int := []
  byteValues : List Nat := []
  stringValue : String := ""
  deriving DecidableEq, Repr

/-- One property value at one area.  The defaults are those of the parcelable,
which a designated initialiser leaves in place for the fields it omits. -/
structure VehiclePropValue where
  timestamp : Int := 0
  areaId : Int := 0
  prop : Int := 0
  status : VehiclePropertyStatus := VehiclePropertyStatus.AVAILABLE
  value : RawPropValues := {}
  deriving DecidableEq, Repr

/-- Per-area configuration; only `areaId` is read by the code under study. -/
structure VehicleAreaConfig where
  areaId : Int := 0
  minInt32Value : Int := 0
  maxInt32Value : Int := 0
  deriving DecidableEq, Repr

instance : Inhabited VehicleAreaConfig := ⟨{}⟩

/-- Per-property configuration. -/
structure VehiclePropConfig where
  prop : Int := 0
  access : Nat := 0
  changeMode : Nat := 0
  areaConfigs : List VehicleAreaConfig := []
  deriving DecidableEq, Repr

namespace FakeHw

/-- One entry of the default configuration (`defaultconfig::ConfigDeclaration`).
`initialAreaValues` is a `std::map<int32_t, RawPropValues>`, embedded as an
association list: `empty()` is `List.isEmpty`, `find` is `List.lookup`. -/
structure ConfigDeclaration where
  config : VehiclePropConfig
  initialValue : RawPropValues := {}
  initialAreaValues : List (Int × RawPropValues) := []
  deriving DecidableEq, Repr

/-- A request of a `setValues` batch. -/
structure SetValueRequest where
  requestId : Int
  value : VehiclePropValue
  deriving DecidableEq, Repr

/-- A per-request result of a `setValues` batch. -/
structure SetValueResult where
  requestId : Int
  status : StatusCode
  deriving DecidableEq, Repr

/-- A request of a `getValues` batch. -/
structure GetValueRequest where
  requestId : Int
  prop : VehiclePropValue
  deriving DecidableEq, Repr

/-- A per-request result of a `getValues` batch: a value on success, otherwise
only the error status. -/
structure GetValueResult where
  requestId : Int
  status : StatusCode
  prop : Option VehiclePropValue
  deriving DecidableEq, Repr

/-- Result of `dump`. -/
structure DumpResult where
  callerShouldDumpState : Bool := false
  buffer : String := ""
  deriving DecidableEq, Repr

/-- Error kinds a store operation can report. -/
inductive StoreError where
  | AlreadyRegistered
  | NotFound
  | InvalidArg
  deriving DecidableEq, Repr

/-- The `Result<void>` returned by store operations. -/
inductive StoreResult where
  | success
  | error (e : StoreError)
  deriving DecidableEq, Repr

/-- Embeds `ok()` of a result. -/
def StoreResult.ok : StoreResult → Bool
  | StoreResult.success => true
  | StoreResult.error _ => false

/-- What one `writeValue` call does: the new store state, the returned result,
and the values with which the store called its value-change callback. -/
structure WriteOutcome (σ : Type) where
  store : σ
  result : StoreResult
  notified : List VehiclePropValue

/-- The property store used by the adapter (`VehiclePropertyStore`), which is
not among the sources under study: the adapter is verified against an
arbitrary implementation of the operations it calls. -/
structure VehiclePropertyStore (σ : Type) where
  create : σ
  registerProperty : σ → VehiclePropConfig → σ × StoreResult
  writeValue : σ → VehiclePropValue → Bool → WriteOutcome σ
  getAllConfigs : σ → List VehiclePropConfig
  setOnValueChangeCallback : σ → σ

/-- What the adapter takes from its environment: the classification of property
ids (`isGlobalProp`, from `VehicleUtils.h`) and the monotonic clock, given as
the sequence of the readings it returns. -/
structure Env where
  isGlobalProp : Int → Bool
  elapsedRealtimeNano : Nat → Int

/-- Everything observable that the adapter does to the outside.  Callbacks are
`std::function` objects; they are identified by a handle, since the adapter
only stores and invokes them. -/
inductive Event where
  | registerProperty (cfg : VehiclePropConfig) (ok : Bool)
  | writeValue (v : VehiclePropValue) (updateStatus : Bool) (ok : Bool)
  | setOnValueChangeCallback
  | logWarning (propId : Int) (curArea : Int)
  | logError
  | onValueChange (v : VehiclePropValue)
  | propertyChange (cb : Nat) (updatedValues : List VehiclePropValue)
  | propertySetError (cb : Nat)
  | setValuesResults (cb : Nat) (results : List SetValueResult)
  | getValuesResults (cb : Nat) (results : List GetValueResult)
  deriving DecidableEq, Repr

/-- State of a `FakeVehicleHardware` object.  `callbackInStore` records whether
the current store object has been handed the lambda that calls
`onValueChangeCallback`; a store can only call a function object it was given.
`clockReads` counts the clock readings taken so far. -/
structure FakeVehicleHardware (σ : Type) where
  mServerSidePropStore : σ
  callbackInStore : Bool := false
  mOnPropertyChangeCallback : Option Nat := none
  mOnPropertySetErrorCallback : Option Nat := none
  clockReads : Nat := 0
  trace : List Event := []

/-- Modelled from the spec: `VehiclePropValuePool::obtain` is not among the
sources; it returns an instance initialised from the fields of its template. -/
def obtain (v : VehiclePropValue) : VehiclePropValue := v

/-- Embeds `FakeVehicleHardware::onValueChangeCallback`. -/
def onValueChangeCallback {σ : Type} (hw : FakeVehicleHardware σ) (value : VehiclePropValue) :
    FakeVehicleHardware σ :=
  match hw.mOnPropertyChangeCallback with
  | some cb =>
    let updatedValues : List VehiclePropValue := [] ++ [value]
    { hw with trace := hw.trace ++ [Event.propertyChange cb updatedValues] }
  | none => hw

/-- The lambda `init` hands to the store, which captures the adapter and returns
`onValueChangeCallback(value)`; entering it is recorded as `Event.onValueChange`. -/
def storeCallback {σ : Type} (hw : FakeVehicleHardware σ) (value : VehiclePropValue) :
    FakeVehicleHardware σ :=
  onValueChangeCallback { hw with trace := hw.trace ++ [Event.onValueChange value] } value

/-- Delivery of the callback invocations a store makes during one call: they run
the lambda installed by `init`, and nothing before the store holds that lambda. -/
def deliver {σ : Type} (hw : FakeVehicleHardware σ) (notified : List VehiclePropValue) :
    FakeVehicleHardware σ :=
  if hw.callbackInStore then notified.foldl storeCallback hw else hw

/-- The tail of one loop iteration of `storePropInitialValue`: the store write
and the error log. -/
def writeInitialValue {σ : Type} (S : VehiclePropertyStore σ) (hw : FakeVehicleHardware σ)
    (prop : VehiclePropValue) : FakeVehicleHardware σ :=
  let r := S.writeValue hw.mServerSidePropStore (obtain prop) true
  let hw := { hw with
    mServerSidePropStore := r.store
    trace := hw.trace ++ [Event.writeValue (obtain prop) true r.result.ok] }
  let hw := deliver hw r.notified
  if !r.result.ok then { hw with trace := hw.trace ++ [Event.logError] } else hw

/-- The body of the loop of `storePropInitialValue`, for loop index `i`. -/
def storePropInitialValueStep {σ : Type} (S : VehiclePropertyStore σ) (env : Env)
    (config : ConfigDeclaration) (hw : FakeVehicleHardware σ) (i : Nat) :
    FakeVehicleHardware σ :=
  let vehiclePropConfig := config.config
  let propId := vehiclePropConfig.prop
  let globalProp := env.isGlobalProp propId
  let curArea : Int :=
    if globalProp then 0 else (vehiclePropConfig.areaConfigs.getD i default).areaId
  let now := env.elapsedRealtimeNano hw.clockReads
  let hw := { hw with clockReads := hw.clockReads + 1 }
  let prop : VehiclePropValue := { areaId := curArea, prop := propId, timestamp := now }
  if config.initialAreaValues.isEmpty then
    if config.initialValue = {} then
      hw
    else
      writeInitialValue S hw { prop with value := config.initialValue }
  else
    match config.initialAreaValues.lookup curArea with
    | some valueForArea => writeInitialValue S hw { prop with value := valueForArea }
    | none => { hw with trace := hw.trace ++ [Event.logWarning propId curArea] }

/-- Embeds `FakeVehicleHardware::storePropInitialValue`. -/
def storePropInitialValue {σ : Type} (S : VehiclePropertyStore σ) (env : Env)
    (config : ConfigDeclaration) (hw : FakeVehicleHardware σ) : FakeVehicleHardware σ :=
  let globalProp := env.isGlobalProp config.config.prop
  let numAreas : Nat := if globalProp then 1 else config.config.areaConfigs.length
  (List.range numAreas).foldl (storePropInitialValueStep S env config) hw

/-- The body of the loop of `init`: register the entry, then seed it. -/
def initStep {σ : Type} (S : VehiclePropertyStore σ) (env : Env)
    (hw : FakeVehicleHardware σ) (it : ConfigDeclaration) : FakeVehicleHardware σ :=
  let cfg := it.config
  let r := S.registerProperty hw.mServerSidePropStore cfg
  let hw := { hw with
    mServerSidePropStore := r.1
    trace := hw.trace ++ [Event.registerProperty cfg r.2.ok] }
  storePropInitialValue S env it hw

/-- Embeds `FakeVehicleHardware::init`; `defaultConfigs` is what
`defaultconfig::getDefaultConfigs()` returns. -/
def init {σ : Type} (S : VehiclePropertyStore σ) (env : Env)
    (defaultConfigs : List ConfigDeclaration) (hw : FakeVehicleHardware σ) :
    FakeVehicleHardware σ :=
  let hw := { hw with mServerSidePropStore := S.create, callbackInStore := false }
  let hw := defaultConfigs.foldl (initStep S env) hw
  { hw with
    mServerSidePropStore := S.setOnValueChangeCallback hw.mServerSidePropStore
    callbackInStore := true
    trace := hw.trace ++ [Event.setOnValueChangeCallback] }

/-- The constructors of `FakeVehicleHardware`: a fresh object, then `init`. -/
def construct {σ : Type} (S : VehiclePropertyStore σ) (env : Env)
    (defaultConfigs : List ConfigDeclaration) : FakeVehicleHardware σ :=
  init S env defaultConfigs { mServerSidePropStore := S.create }

/-- Embeds `FakeVehicleHardware::getAllPropertyConfigs`. -/
def getAllPropertyConfigs {σ : Type} (S : VehiclePropertyStore σ) (hw : FakeVehicleHardware σ) :
    List VehiclePropConfig :=
  S.getAllConfigs hw.mServerSidePropStore

/-- Embeds `FakeVehicleHardware::setValues`: the body is a single `return StatusCode::OK`. -/
def setValues {σ : Type} (hw : FakeVehicleHardware σ) (_callback : Nat)
    (_requests : List SetValueRequest) : FakeVehicleHardware σ × StatusCode :=
  (hw, StatusCode.OK)

/-- Embeds `FakeVehicleHardware::getValues`: the body is a single `return StatusCode::OK`. -/
def getValues {σ : Type} (hw : FakeVehicleHardware σ) (_callback : Nat)
    (_requests : List GetValueRequest) : FakeVehicleHardware σ × StatusCode :=
  (hw, StatusCode.OK)

/-- Embeds `FakeVehicleHardware::dump`. -/
def dump {σ : Type} (hw : FakeVehicleHardware σ) (_options : List String) :
    FakeVehicleHardware σ × DumpResult :=
  (hw, {})

/-- Embeds `FakeVehicleHardware::checkHealth`. -/
def checkHealth {σ : Type} (hw : FakeVehicleHardware σ) : FakeVehicleHardware σ × StatusCode :=
  (hw, StatusCode.OK)

/-- Embeds `FakeVehicleHardware::registerOnPropertyChangeEvent`; `none` is an empty
`std::function`. -/
def registerOnPropertyChangeEvent {σ : Type} (hw : FakeVehicleHardware σ)
    (callback : Option Nat) : FakeVehicleHardware σ :=
  { hw with mOnPropertyChangeCallback := callback }

/-- Embeds `FakeVehicleHardware::registerOnPropertySetErrorEvent`. -/
def registerOnPropertySetErrorEvent {σ : Type} (hw : FakeVehicleHardware σ)
    (callback : Option Nat) : FakeVehicleHardware σ :=
  { hw with mOnPropertySetErrorCallback := callback }

/-! ### Observations on a trace -/

/-- The store write carried by an event, if it is one: the value handed to
`writeValue` and the `updateStatus` flag. -/
def Event.asWrite : Event → Option (VehiclePropValue × Bool)
  | Event.writeValue v updateStatus _ => some (v, updateStatus)
  | _ => none

/-- The `writeValue` calls recorded in a trace, in order. -/
def writeCalls (tr : List Event) : List (VehiclePropValue × Bool) :=
  tr.filterMap Event.asWrite

/-- Events in which control reaches `onValueChangeCallback` or one of the two
registered callbacks. -/
def Event.isCallback : Event → Bool
  | Event.onValueChange _ => true
  | Event.propertyChange _ _ => true
  | Event.propertySetError _ => true
  | _ => false

/-- Events in which a batch-completion callback is invoked. -/
def Event.isCompletion : Event → Bool
  | Event.setValuesResults _ _ => true
  | Event.getValuesResults _ _ => true
  | _ => false

/-- Events that seeding one entry with property id `propId` may emit while the
store holds no callback: writes for that property with `updateStatus = true`,
and the two log lines. -/
def Event.isSeedOf (propId : Int) : Event → Bool
  | Event.writeValue v updateStatus _ => decide (v.prop = propId) && updateStatus
  | Event.logWarning p _ => decide (p = propId)
  | Event.logError => true
  | _ => false

/-- The value a loop iteration of `storePropInitialValue` hands to the store,
if it hands one: iteration `i`, with `n` clock readings taken before it. -/
def seedValue (env : Env) (config : ConfigDeclaration) (i n : Nat) : Option VehiclePropValue :=
  let curArea : Int :=
    if env.isGlobalProp config.config.prop then 0
    else (config.config.areaConfigs.getD i default).areaId
  let payload : Option RawPropValues :=
    if config.initialAreaValues.isEmpty then
      (if config.initialValue = {} then none else some config.initialValue)
    else config.initialAreaValues.lookup curArea
  payload.map fun p =>
    { areaId := curArea, prop := config.config.prop,
      timestamp := env.elapsedRealtimeNano n, value := p }

/-- A registration history: each call of one of the two registration methods. -/
inductive Registration where
  | propertyChange (callback : Option Nat)
  | propertySetError (callback : Option Nat)
  deriving DecidableEq, Repr

/-- Performs one registration call. -/
def register {σ : Type} (hw : FakeVehicleHardware σ) : Registration → FakeVehicleHardware σ
  | Registration.propertyChange cb => registerOnPropertyChangeEvent hw cb
  | Registration.propertySetError cb => registerOnPropertySetErrorEvent hw cb

/-- The arguments of the `registerOnPropertyChangeEvent` calls of a history, in
call order. -/
def propertyChangeArgs (regs : List Registration) : List (Option Nat) :=
  regs.filterMap fun r =>
    match r with
    | Registration.propertyChange cb => some cb
    | Registration.propertySetError _ => none

/-- The property-change callback in force after a history of registrations on an
object whose callback was `before`: the argument of the most recent
`registerOnPropertyChangeEvent` call, and `before` when there was none. -/
def currentPropertyChange (before : Option Nat) (regs : List Registration) : Option Nat :=
  (propertyChangeArgs regs).getLast?.getD before

/-! ### A store following the specification -/

/-- Modelled from the spec: the state of the property store
(`VehiclePropertyStore`, not among the sources): the registered configs in
registration order, the current values keyed by (property, area), and whether a
value-change callback is registered. -/
structure SpecStore where
  configs : List VehiclePropConfig := []
  values : List VehiclePropValue := []
  callback : Bool := false
  deriving DecidableEq, Repr

/-- Modelled from the spec: `registerProperty` of the missing store adds the
config, and fails with `AlreadyRegistered` when the property id exists. -/
def SpecStore.registerProperty (s : SpecStore) (cfg : VehiclePropConfig) :
    SpecStore × StoreResult :=
  if s.configs.any (fun c => decide (c.prop = cfg.prop)) then
    (s, StoreResult.error StoreError.AlreadyRegistered)
  else
    ({ s with configs := s.configs ++ [cfg] }, StoreResult.success)

/-- Modelled from the spec: `writeValue` of the missing store.  The property must
be registered and, unless global, the area declared (a global property is written
at area 0), else `NotFound`; the payload must fit the config (`validPayload`,
left open by the spec), else `InvalidArg`.  On success the value replaces the
stored one, with status `AVAILABLE` when `updateStatus` is set, and the
registered callback, if any, is called with the new value. -/
def SpecStore.writeValue (isGlobalProp : Int → Bool)
    (validPayload : VehiclePropConfig → VehiclePropValue → Bool)
    (s : SpecStore) (v : VehiclePropValue) (updateStatus : Bool) : WriteOutcome SpecStore :=
  match s.configs.find? (fun c => decide (c.prop = v.prop)) with
  | none => { store := s, result := StoreResult.error StoreError.NotFound, notified := [] }
  | some cfg =>
    let areaKnown : Bool :=
      if isGlobalProp v.prop then decide (v.areaId = 0)
      else cfg.areaConfigs.any (fun a => decide (a.areaId = v.areaId))
    if !areaKnown then
      { store := s, result := StoreResult.error StoreError.NotFound, notified := [] }
    else if !validPayload cfg v then
      { store := s, result := StoreResult.error StoreError.InvalidArg, notified := [] }
    else
      let stored : VehiclePropValue :=
        if updateStatus then { v with status := VehiclePropertyStatus.AVAILABLE } else v
      let others := s.values.filter
        (fun x => !(decide (x.prop = v.prop) && decide (x.areaId = v.areaId)))
      { store := { s with values := stored :: others }
        result := StoreResult.success
        notified := if s.callback then [stored] else [] }

/-- Modelled from the spec: the missing store as a whole; `getAllConfigs` returns
the configs in registration order, `setOnValueChangeCallback` registers the
single callback. -/
def specStore (isGlobalProp : Int → Bool)
    (validPayload : VehiclePropConfig → VehiclePropValue → Bool) :
    VehiclePropertyStore SpecStore where
  create := {}
  registerProperty := SpecStore.registerProperty
  writeValue := SpecStore.writeValue isGlobalProp validPayload
  getAllConfigs := fun s => s.configs
  setOnValueChangeCallback := fun s => { s with callback := true }

/-! ### Sample inputs -/

/-- A store that accepts everything, keeps nothing and never calls back. -/
def acceptingStore : VehiclePropertyStore Unit where
  create := ()
  registerProperty := fun _ _ => ((), StoreResult.success)
  writeValue := fun _ _ _ => { store := (), result := StoreResult.success, notified := [] }
  getAllConfigs := fun _ => []
  setOnValueChangeCallback := fun _ => ()

/-- A store that rejects every call, and calls back on every write. -/
def rejectingStore : VehiclePropertyStore Unit where
  create := ()
  registerProperty := fun _ _ => ((), StoreResult.error StoreError.AlreadyRegistered)
  writeValue := fun _ v _ =>
    { store := (), result := StoreResult.error StoreError.InvalidArg, notified := [v] }
  getAllConfigs := fun _ => []
  setOnValueChangeCallback := fun _ => ()

/-- A sample environment: property ids below 100 are global, and the n-th clock
reading is `1000 + n`. -/
def sampleEnv : Env where
  isGlobalProp := fun p => decide (p < 100)
  elapsedRealtimeNano := fun n => 1000 + (n : Int)

/-- A per-area property (id 200) with two areas, a global initial value and no
per-area initial values. -/
def perAreaNoAreaValues : ConfigDeclaration where
  config := { prop := 200, areaConfigs := [{ areaId := 1 }, { areaId := 4 }] }
  initialValue := { int32Values := [7] }

/-- A per-area property (id 201) with two areas and an initial value for area 1 only. -/
def perAreaOneMissing : ConfigDeclaration where
  config := { prop := 201, areaConfigs := [{ areaId := 1 }, { areaId := 4 }] }
  initialAreaValues := [(1, { int32Values := [3] })]

/-- A global property (id 10) with an empty global initial value and a per-area
initial value keyed by area 0. -/
def globalWithAreaValue : ConfigDeclaration where
  config := { prop := 10 }
  initialAreaValues := [(0, { int32Values := [9] })]

/-- A global property (id 11) with a global initial value and nothing else. -/
def globalPlain : ConfigDeclaration where
  config := { prop := 11 }
  initialValue := { floatValues := [1065353216] }

/-- A fresh adapter state over the unit store. -/
def freshUnit : FakeVehicleHardware Unit := { mServerSidePropStore := () }

/-! ### Proof-side descriptions of the seeding -/

/-- Number of loop iterations of `storePropInitialValue` for an entry. -/
def numAreas (env : Env) (config : ConfigDeclaration) : Nat :=
  if env.isGlobalProp config.config.prop then 1 else config.config.areaConfigs.length

/-- The area visited by iteration `i` of `storePropInitialValue`. -/
def areaAt (env : Env) (config : ConfigDeclaration) (i : Nat) : Int :=
  if env.isGlobalProp config.config.prop then 0
  else (config.config.areaConfigs.getD i default).areaId

/-- The writes one call of `storePropInitialValue` hands to the store, with `n`
clock readings taken before the call. -/
def entryWrites (env : Env) (config : ConfigDeclaration) (n : Nat) :
    List (VehiclePropValue × Bool) :=
  (List.range (numAreas env config)).flatMap fun i =>
    (seedValue env config i (n + i)).toList.map fun v => (v, true)

/-- The writes `init` hands to the store for a list of entries, with `n` clock
readings taken before. -/
def seedPlan (env : Env) : List ConfigDeclaration → Nat → List (VehiclePropValue × Bool)
  | [], _ => []
  | d :: ds, n => entryWrites env d n ++ seedPlan env ds (n + numAreas env d)

/-- A write without its timestamp: property, area, payload, `updateStatus`. -/
def untimed (w : VehiclePropValue × Bool) : Int × Int × RawPropValues × Bool :=
  (w.1.prop, w.1.areaId, w.1.value, w.2)

/-- The part of a trace that belongs to one default configuration entry: its
registration first, then only seed events of that entry. -/
def IsEntryBlock (d : ConfigDeclaration) (b : List Event) : Prop :=
  ∃ ok rest, b = Event.registerProperty d.config ok :: rest ∧
    ∀ e ∈ rest, e.isSeedOf d.config.prop = true

/-- Every stored value is `AVAILABLE`, and every write the store accepted has a
stored value at its (property, area). -/
def SeedInv (hw : FakeVehicleHardware SpecStore) : Prop :=
  (∀ x ∈ hw.mServerSidePropStore.values, x.status = VehiclePropertyStatus.AVAILABLE) ∧
  ∀ v updateStatus, Event.writeValue v updateStatus true ∈ hw.trace →
    ∃ x ∈ hw.mServerSidePropStore.values, x.prop = v.prop ∧ x.areaId = v.areaId

/-- The config handed to `registerProperty` by an event, if it is such a call. -/
def Event.asRegister : Event → Option VehiclePropConfig
  | Event.registerProperty cfg _ => some cfg
  | _ => none

/-- The `registerProperty` calls recorded in a trace, in order. -/
def registerCalls (tr : List Event) : List VehiclePropConfig :=
  tr.filterMap Event.asRegister

/-- A payload check that accepts everything. -/
def anyPayload (_cfg : VehiclePropConfig) (_v : VehiclePropValue) : Bool := true

/-- A fresh adapter state over the specified store. -/
def freshSpec : FakeVehicleHardware SpecStore := { mServerSidePropStore := {} }

/-- A sample default configuration. -/
def sampleConfigs : List ConfigDeclaration :=
  [perAreaNoAreaValues, globalPlain, perAreaOneMissing]

end FakeHw

/-! ## The passthrough connector (`VehicleConnector.h`) -/

namespace V2_0

/-- The calls a connector makes on the methods it leaves to be implemented. -/
inductive Call (Val : Type) where
  | onGetAllPropertyConfig
  | onSetProperty (value : Val)
  | onPropertyValue (value : Val)
  deriving DecidableEq, Repr

/-- The methods `IPassThroughConnector` leaves to be implemented by the client
and server types it combines, over an object state `σ`.  `Cfg` and `Val` are the
HIDL types `VehiclePropConfig` and `VehiclePropValue`.  `onGetAllPropertyConfig`
is `const`. -/
structure IPassThroughConnector (σ Cfg Val : Type) where
  onGetAllPropertyConfig : σ → List Cfg
  onSetProperty : σ → Val → σ × StatusCode
  onPropertyValue : σ → Val → σ

/-- A connector object: its state and the log of the calls dispatched to the
methods to be implemented. -/
structure Object (σ Val : Type) where
  state : σ
  calls : List (Call Val) := []

/-- Embeds `IPassThroughConnector::getAllPropertyConfig`. -/
def IPassThroughConnector.getAllPropertyConfig {σ Cfg Val : Type}
    (c : IPassThroughConnector σ Cfg Val) (self : Object σ Val) : Object σ Val × List Cfg :=
  ({ self with calls := self.calls ++ [Call.onGetAllPropertyConfig] },
    c.onGetAllPropertyConfig self.state)

/-- Embeds `IPassThroughConnector::setProperty`. -/
def IPassThroughConnector.setProperty {σ Cfg Val : Type}
    (c : IPassThroughConnector σ Cfg Val) (self : Object σ Val) (value : Val) :
    Object σ Val × StatusCode :=
  let r := c.onSetProperty self.state value
  ({ state := r.1, calls := self.calls ++ [Call.onSetProperty value] }, r.2)

/-- Embeds `IPassThroughConnector::onPropertyValueFromCar`. -/
def IPassThroughConnector.onPropertyValueFromCar {σ Cfg Val : Type}
    (c : IPassThroughConnector σ Cfg Val) (self : Object σ Val) (value : Val) : Object σ Val :=
  { state := c.onPropertyValue self.state value
    calls := self.calls ++ [Call.onPropertyValue value] }

end V2_0

/-! ## The fingerprint HAL stub (`Fingerprint.cpp`) -/

namespace Fingerprint

/-- The type `common::SensorStrength`. -/
inductive SensorStrength where
  | CONVENIENCE
  | WEAK
  | STRONG
  deriving DecidableEq, Repr

/-- The type `FingerprintSensorType`. -/
inductive FingerprintSensorType where
  | UNKNOWN
  | REAR
  | UNDER_DISPLAY_ULTRASONIC
  | UNDER_DISPLAY_OPTICAL
  | POWER_BUTTON
  | HOME_BUTTON
  deriving DecidableEq, Repr

/-- The type `common::HardwareInfo`, fields in declaration order. -/
structure HardwareInfo where
  deviceName : String
  hardwareVersion : String
  firmwareVersion : String
  serialNumber : String
  deriving DecidableEq, Repr

/-- The type `common::CommonProps`, fields in declaration order. -/
structure CommonProps where
  sensorId : Int
  sensorStrength : SensorStrength
  maxEnrollmentsPerUser : Int
  hardwareInfo : List HardwareInfo
  deriving DecidableEq, Repr

/-- The type `SensorLocation`, fields in the order the source names them. -/
structure SensorLocation where
  displayId : Int
  sensorLocationX : Int
  sensorLocationY : Int
  sensorRadius : Int
  deriving DecidableEq, Repr

/-- The type `SensorProps`, fields in declaration order. -/
structure SensorProps where
  commonProps : CommonProps
  sensorType : FingerprintSensorType
  sensorLocations : List SensorLocation
  supportsNavigationGestures : Bool
  supportsDetectInteraction : Bool
  deriving DecidableEq, Repr

/-- The type `ndk::ScopedAStatus`: `ok()` or an error with its exception code. -/
inductive ScopedAStatus where
  | ok
  | fromExceptionCode (code : Int)
  deriving DecidableEq, Repr

/-- The session object made by `createSession`.  `Session.h` is not among the
sources; the object is known here by its constructor argument alone. -/
structure Session where
  cb : Option Nat
  deriving DecidableEq, Repr

def SENSOR_ID : Int := 1
def SENSOR_STRENGTH : SensorStrength := SensorStrength.STRONG
def MAX_ENROLLMENTS_PER_USER : Int := 5
def SENSOR_TYPE : FingerprintSensorType := FingerprintSensorType.REAR
def SUPPORTS_NAVIGATION_GESTURES : Bool := true
def HW_DEVICE_NAME : String := "fingerprintSensor"
def HW_VERSION : String := "vendor/model/revision"
def FW_VERSION : String := "1.01"
def SERIAL_NUMBER : String := "00000001"

/-- Embeds `Fingerprint::getSensorProps`: takes the previous contents of `*out`, returns
the status and the new contents. -/
def getSensorProps (_out : List SensorProps) : ScopedAStatus × List SensorProps :=
  let hardwareInfos : List HardwareInfo :=
    [⟨HW_DEVICE_NAME, HW_VERSION, FW_VERSION, SERIAL_NUMBER⟩]
  let commonProps : CommonProps :=
    ⟨SENSOR_ID, SENSOR_STRENGTH, MAX_ENROLLMENTS_PER_USER, hardwareInfos⟩
  let sensorLocation : SensorLocation := ⟨0, 0, 0, 0⟩
  (ScopedAStatus.ok,
    [⟨commonProps, SENSOR_TYPE, [sensorLocation], SUPPORTS_NAVIGATION_GESTURES, false⟩])

/-- Embeds `Fingerprint::createSession`: takes the previous contents of `*out` (`none`
is a null pointer), returns the status and the new contents. -/
def createSession (_sensorId : Int) (_userId : Int) (cb : Option Nat) (_out : Option Session) :
    ScopedAStatus × Option Session :=
  (ScopedAStatus.ok, some ⟨cb⟩)

end Fingerprint

/-! ## Lemmas on the fake vehicle hardware -/

namespace FakeHw

section Frame

variable {σ : Type}

theorem writeCalls_append (a b : List Event) : writeCalls (a ++ b) = writeCalls a ++ writeCalls b := by
  simp [writeCalls, List.filterMap_append]

/-- What `storeCallback` leaves alone, and what it adds to the trace. -/
theorem storeCallback_frame (hw : FakeVehicleHardware σ) (v : VehiclePropValue) :
    (storeCallback hw v).mServerSidePropStore = hw.mServerSidePropStore ∧
    (storeCallback hw v).clockReads = hw.clockReads ∧
    (storeCallback hw v).callbackInStore = hw.callbackInStore ∧
    (storeCallback hw v).mOnPropertyChangeCallback = hw.mOnPropertyChangeCallback ∧
    writeCalls (storeCallback hw v).trace = writeCalls hw.trace := by
  unfold storeCallback onValueChangeCallback
  cases h : hw.mOnPropertyChangeCallback <;>
    simp [h, writeCalls_append, writeCalls, Event.asWrite]

/-- What `deliver` leaves alone. -/
theorem deliver_frame (hw : FakeVehicleHardware σ) (notified : List VehiclePropValue) :
    (deliver hw notified).mServerSidePropStore = hw.mServerSidePropStore ∧
    (deliver hw notified).clockReads = hw.clockReads ∧
    (deliver hw notified).callbackInStore = hw.callbackInStore ∧
    writeCalls (deliver hw notified).trace = writeCalls hw.trace := by
  unfold deliver
  split
  · clear * -
    induction notified generalizing hw with
    | nil => simp
    | cons v vs ih =>
      obtain ⟨h1, h2, h3, _, h5⟩ := storeCallback_frame hw v
      obtain ⟨i1, i2, i3, i5⟩ := ih (storeCallback hw v)
      simp only [List.foldl_cons]
      exact ⟨i1.trans h1, i2.trans h2, i3.trans h3, i5.trans h5⟩
  · simp

/-- While the store holds no callback, `deliver` does nothing. -/
theorem deliver_of_not_installed (hw : FakeVehicleHardware σ) (notified : List VehiclePropValue)
    (h : hw.callbackInStore = false) : deliver hw notified = hw := by
  simp [deliver, h]

end Frame

section Seeding

variable {σ : Type}

theorem writeInitialValue_frame (S : VehiclePropertyStore σ) (hw : FakeVehicleHardware σ)
    (prop : VehiclePropValue) :
    (writeInitialValue S hw prop).clockReads = hw.clockReads ∧
    (writeInitialValue S hw prop).callbackInStore = hw.callbackInStore ∧
    writeCalls (writeInitialValue S hw prop).trace = writeCalls hw.trace ++ [(prop, true)] := by
  unfold writeInitialValue
  simp only []
  obtain ⟨_, h2, h3, h4⟩ := deliver_frame
    { hw with
      mServerSidePropStore := (S.writeValue hw.mServerSidePropStore (obtain prop) true).store
      trace := hw.trace ++ [Event.writeValue (obtain prop) true
        (S.writeValue hw.mServerSidePropStore (obtain prop) true).result.ok] }
    (S.writeValue hw.mServerSidePropStore (obtain prop) true).notified
  split
  · simp only [writeCalls_append, h2, h3, h4]
    simp [writeCalls, Event.asWrite, obtain]
  · simp only [writeCalls_append, h2, h3, h4]
    simp [writeCalls, Event.asWrite, obtain]

theorem step_frame (S : VehiclePropertyStore σ) (env : Env) (config : ConfigDeclaration)
    (hw : FakeVehicleHardware σ) (i : Nat) :
    (storePropInitialValueStep S env config hw i).clockReads = hw.clockReads + 1 ∧
    (storePropInitialValueStep S env config hw i).callbackInStore = hw.callbackInStore ∧
    writeCalls (storePropInitialValueStep S env config hw i).trace =
      writeCalls hw.trace ++
        (seedValue env config i hw.clockReads).toList.map (fun v => (v, true)) := by
  unfold storePropInitialValueStep seedValue
  simp only []
  split
  · split
    · simp
    · rename_i h1 h2
      obtain ⟨a, b, c⟩ := writeInitialValue_frame S { hw with clockReads := hw.clockReads + 1 }
        { areaId := if env.isGlobalProp config.config.prop = true then 0
            else (config.config.areaConfigs.getD i default).areaId,
          prop := config.config.prop, timestamp := env.elapsedRealtimeNano hw.clockReads,
          value := config.initialValue }
      refine ⟨a, b, ?_⟩
      rw [c]
      simp
  · split
    · rename_i h1 v h2
      obtain ⟨a, b, c⟩ := writeInitialValue_frame S { hw with clockReads := hw.clockReads + 1 }
        { areaId := if env.isGlobalProp config.config.prop = true then 0
            else (config.config.areaConfigs.getD i default).areaId,
          prop := config.config.prop, timestamp := env.elapsedRealtimeNano hw.clockReads,
          value := v }
      refine ⟨a, b, ?_⟩
      rw [c, h2]
      simp
    · rename_i h1 h2
      simp only [h2]
      simp [writeCalls_append, writeCalls, Event.asWrite]

theorem steps_frame (S : VehiclePropertyStore σ) (env : Env) (config : ConfigDeclaration)
    (hw : FakeVehicleHardware σ) (n : Nat) :
    ((List.range n).foldl (storePropInitialValueStep S env config) hw).clockReads =
      hw.clockReads + n ∧
    ((List.range n).foldl (storePropInitialValueStep S env config) hw).callbackInStore =
      hw.callbackInStore ∧
    writeCalls ((List.range n).foldl (storePropInitialValueStep S env config) hw).trace =
      writeCalls hw.trace ++ (List.range n).flatMap fun i =>
        (seedValue env config i (hw.clockReads + i)).toList.map fun v => (v, true) := by
  induction n with
  | zero => simp
  | succ n ih =>
    obtain ⟨i1, i2, i3⟩ := ih
    obtain ⟨s1, s2, s3⟩ := step_frame S env config
      ((List.range n).foldl (storePropInitialValueStep S env config) hw) n
    rw [List.range_succ, List.foldl_append]
    simp only [List.foldl_cons, List.foldl_nil]
    refine ⟨?_, ?_, ?_⟩
    · rw [s1, i1]; omega
    · rw [s2, i2]
    · rw [s3, i3, i1]
      simp [List.flatMap_append]

/-- The writes of one `storePropInitialValue` call, and its effect on the clock
count and on the callback flag. -/
theorem storePropInitialValue_frame (S : VehiclePropertyStore σ) (env : Env)
    (config : ConfigDeclaration) (hw : FakeVehicleHardware σ) :
    (storePropInitialValue S env config hw).clockReads = hw.clockReads + numAreas env config ∧
    (storePropInitialValue S env config hw).callbackInStore = hw.callbackInStore ∧
    writeCalls (storePropInitialValue S env config hw).trace =
      writeCalls hw.trace ++ entryWrites env config hw.clockReads := by
  unfold storePropInitialValue entryWrites numAreas
  exact steps_frame S env config hw _

end Seeding

section Plan

theorem range_map_areaId (l : List VehicleAreaConfig) :
    (List.range l.length).map (fun i => (l.getD i default).areaId) = l.map (fun c => c.areaId) := by
  apply List.ext_getElem
  · simp
  · intro n h1 h2
    simp only [List.length_map, List.length_range] at h1
    simp [List.getElem?_eq_getElem h1]

/-- The areas visited by the loop of `storePropInitialValue`, in order. -/
theorem range_map_areaAt (env : Env) (config : ConfigDeclaration) :
    (List.range (numAreas env config)).map (areaAt env config) =
      if env.isGlobalProp config.config.prop then [0]
      else config.config.areaConfigs.map (fun c => c.areaId) := by
  unfold numAreas areaAt
  split
  · simp [List.range_succ]
  · simpa using range_map_areaId config.config.areaConfigs

/-- The payload `storePropInitialValue` seeds at an area, if any: the global
initial value when there are no per-area values and it is not empty, else the
per-area value of that area. -/
theorem seedValue_eq_some (env : Env) (config : ConfigDeclaration) (i n : Nat)
    (v : VehiclePropValue) :
    seedValue env config i n = some v ↔
      v = { timestamp := env.elapsedRealtimeNano n, areaId := areaAt env config i,
            prop := config.config.prop, value := v.value } ∧
      (if config.initialAreaValues.isEmpty then
        config.initialValue ≠ {} ∧ v.value = config.initialValue
      else config.initialAreaValues.lookup (areaAt env config i) = some v.value) := by
  have key : seedValue env config i n =
      Option.map
        (fun p =>
          ({ areaId := areaAt env config i, prop := config.config.prop,
             timestamp := env.elapsedRealtimeNano n, value := p } : VehiclePropValue))
        (if config.initialAreaValues.isEmpty then
          (if config.initialValue = {} then none else some config.initialValue)
        else config.initialAreaValues.lookup (areaAt env config i)) := rfl
  rw [key]
  generalize areaAt env config i = a
  by_cases hE : config.initialAreaValues.isEmpty = true
  · by_cases hV : config.initialValue = {}
    · simp [hE, hV]
    · simp only [hE, hV, if_true, if_false, Option.map_some', Option.some.injEq, ne_eq,
        not_false_eq_true, true_and]
      constructor
      · intro h; subst h; simp
      · rintro ⟨h3, h4⟩; rw [h3, h4]
  · simp only [hE, if_false, Bool.false_eq_true]
    cases hl : config.initialAreaValues.lookup a with
    | none => simp
    | some p =>
      simp only [Option.map_some', Option.some.injEq]
      constructor
      · intro h; subst h; simp
      · rintro ⟨h3, h4⟩; rw [h3, h4]

theorem mem_entryWrites (env : Env) (config : ConfigDeclaration) (n : Nat)
    (w : VehiclePropValue × Bool) :
    w ∈ entryWrites env config n ↔
      ∃ i, i < numAreas env config ∧ seedValue env config i (n + i) = some w.1 ∧ w.2 = true := by
  unfold entryWrites
  simp only [List.mem_flatMap, List.mem_range, List.mem_map, Option.mem_toList, Option.mem_def]
  constructor
  · rintro ⟨i, hi, v, hv, rfl⟩
    exact ⟨i, hi, hv, rfl⟩
  · rintro ⟨i, hi, hv, hw⟩
    exact ⟨i, hi, w.1, hv, by cases w; simp_all⟩

theorem areaAt_of_global (env : Env) (config : ConfigDeclaration) (i : Nat)
    (h : env.isGlobalProp config.config.prop = true) : areaAt env config i = 0 := by
  simp [areaAt, h]

theorem mem_areas_iff (env : Env) (config : ConfigDeclaration) (a : Int)
    (h : env.isGlobalProp config.config.prop = false) :
    a ∈ config.config.areaConfigs.map (fun c => c.areaId) ↔
      ∃ i, i < numAreas env config ∧ areaAt env config i = a := by
  have := range_map_areaAt env config
  simp only [h, Bool.false_eq_true, if_false] at this
  rw [← this]
  simp [List.mem_map, List.mem_range]

theorem entryWrites_untimed (env : Env) (config : ConfigDeclaration) (n : Nat) :
    (entryWrites env config n).map untimed = (entryWrites env config 0).map untimed := by
  unfold entryWrites
  simp only [List.map_flatMap]
  congr 1
  funext i
  unfold seedValue
  simp only []
  cases (if config.initialAreaValues.isEmpty = true then
      if config.initialValue = {} then none else some config.initialValue
    else List.lookup (if env.isGlobalProp config.config.prop = true then 0
      else (config.config.areaConfigs.getD i default).areaId) config.initialAreaValues) <;>
    simp [untimed]

theorem seedPlan_append (env : Env) (a b : List ConfigDeclaration) (n : Nat) :
    seedPlan env (a ++ b) n =
      seedPlan env a n ++ seedPlan env b (n + (a.map (numAreas env)).sum) := by
  induction a generalizing n with
  | nil => simp [seedPlan]
  | cons d ds ih => simp [seedPlan, ih, Nat.add_assoc]

theorem seedPlan_untimed (env : Env) (ds : List ConfigDeclaration) (n : Nat) :
    (seedPlan env ds n).map untimed = (seedPlan env ds 0).map untimed := by
  induction ds generalizing n with
  | nil => simp [seedPlan]
  | cons d ds ih =>
    simp only [seedPlan, List.map_append]
    rw [entryWrites_untimed env d n, ih (n + numAreas env d), ih (0 + numAreas env d)]

theorem entryWrites_areas_sublist (env : Env) (config : ConfigDeclaration) (n : Nat) :
    List.Sublist ((entryWrites env config n).map fun w => w.1.areaId)
      ((List.range (numAreas env config)).map (areaAt env config)) := by
  unfold entryWrites
  generalize numAreas env config = k
  induction k with
  | zero => simp
  | succ k ih =>
    rw [List.range_succ]
    simp only [List.flatMap_append, List.map_append, List.flatMap_cons, List.flatMap_nil,
      List.append_nil, List.map_cons, List.map_nil]
    refine List.Sublist.append ih ?_
    cases hs : seedValue env config k (n + k) with
    | none => simp
    | some v =>
      have := (seedValue_eq_some env config k (n + k) v).1 hs
      simp only [Option.toList_some, List.map_cons, List.map_nil]
      rw [this.1]

end Plan

section Induction

variable {σ : Type}

/-- A property of the adapter state that survives a clock reading, a seed write
for the entry and a warning survives `storePropInitialValue`. -/
theorem storePropInitialValue_induction (P : FakeVehicleHardware σ → Prop)
    (S : VehiclePropertyStore σ) (env : Env) (config : ConfigDeclaration)
    (hclock : ∀ hw, P hw → P { hw with clockReads := hw.clockReads + 1 })
    (hwrite : ∀ hw p, p.prop = config.config.prop → P hw → P (writeInitialValue S hw p))
    (hwarn : ∀ hw a, P hw →
      P { hw with trace := hw.trace ++ [Event.logWarning config.config.prop a] })
    (hw : FakeVehicleHardware σ) (h : P hw) : P (storePropInitialValue S env config hw) := by
  have step : ∀ hw i, P hw → P (storePropInitialValueStep S env config hw i) := by
    intro hw i h
    unfold storePropInitialValueStep
    simp only []
    split
    · split
      · exact hclock hw h
      · exact hwrite _ _ rfl (hclock hw h)
    · split
      · exact hwrite _ _ rfl (hclock hw h)
      · exact hwarn _ _ (hclock hw h)
  unfold storePropInitialValue
  simp only []
  generalize List.range _ = l
  induction l generalizing hw with
  | nil => simpa using h
  | cons i l ih => exact ih _ (step hw i h)

/-- While the store holds no callback, a seed write appends the write event and,
when the store rejects it, the error log line. -/
theorem writeInitialValue_of_not_installed (S : VehiclePropertyStore σ)
    (hw : FakeVehicleHardware σ) (prop : VehiclePropValue) (h : hw.callbackInStore = false) :
    writeInitialValue S hw prop =
      { hw with
        mServerSidePropStore := (S.writeValue hw.mServerSidePropStore prop true).store
        trace := hw.trace ++ Event.writeValue prop true
            (S.writeValue hw.mServerSidePropStore prop true).result.ok ::
          (if (S.writeValue hw.mServerSidePropStore prop true).result.ok then []
            else [Event.logError]) } := by
  unfold writeInitialValue
  simp only [obtain]
  have hd := deliver_of_not_installed
    { hw with
      mServerSidePropStore := (S.writeValue hw.mServerSidePropStore prop true).store
      trace := hw.trace ++ [Event.writeValue prop true
        (S.writeValue hw.mServerSidePropStore prop true).result.ok] }
    (S.writeValue hw.mServerSidePropStore prop true).notified h
  rw [hd]
  cases (S.writeValue hw.mServerSidePropStore prop true).result.ok <;> simp

/-- While the store holds no callback, seeding an entry appends only seed events
of that entry. -/
theorem storePropInitialValue_trace (S : VehiclePropertyStore σ) (env : Env)
    (config : ConfigDeclaration) (hw : FakeVehicleHardware σ) (h : hw.callbackInStore = false) :
    (storePropInitialValue S env config hw).callbackInStore = false ∧
    ∃ rest, (storePropInitialValue S env config hw).trace = hw.trace ++ rest ∧
      ∀ e ∈ rest, e.isSeedOf config.config.prop = true := by
  refine storePropInitialValue_induction
    (fun x => x.callbackInStore = false ∧
      ∃ rest, x.trace = hw.trace ++ rest ∧ ∀ e ∈ rest, e.isSeedOf config.config.prop = true)
    S env config ?_ ?_ ?_ hw ⟨h, [], by simp, by simp⟩
  · rintro x ⟨hx, rest, h1, h2⟩
    exact ⟨hx, rest, h1, h2⟩
  · rintro x p hp ⟨hx, rest, h1, h2⟩
    rw [writeInitialValue_of_not_installed S x p hx]
    refine ⟨hx, rest ++ Event.writeValue p true
        (S.writeValue x.mServerSidePropStore p true).result.ok ::
      (if (S.writeValue x.mServerSidePropStore p true).result.ok then []
        else [Event.logError]), by simp [h1], ?_⟩
    intro e he
    simp only [List.mem_append, List.mem_cons] at he
    rcases he with he | he | he
    · exact h2 e he
    · subst he; simp [Event.isSeedOf, hp]
    · split at he
      · simp at he
      · simp only [List.mem_singleton] at he
        subst he; rfl
  · rintro x a ⟨hx, rest, h1, h2⟩
    refine ⟨hx, rest ++ [Event.logWarning config.config.prop a], by simp [h1], ?_⟩
    intro e he
    simp only [List.mem_append, List.mem_singleton] at he
    rcases he with he | he
    · exact h2 e he
    · subst he; simp [Event.isSeedOf]

theorem initStep_trace (S : VehiclePropertyStore σ) (env : Env)
    (hw : FakeVehicleHardware σ) (it : ConfigDeclaration) (h : hw.callbackInStore = false) :
    (initStep S env hw it).callbackInStore = false ∧
    ∃ b, (initStep S env hw it).trace = hw.trace ++ b ∧ IsEntryBlock it b := by
  unfold initStep
  simp only []
  obtain ⟨a, rest, h1, h2⟩ := storePropInitialValue_trace S env it
    { hw with
      mServerSidePropStore := (S.registerProperty hw.mServerSidePropStore it.config).1
      trace := hw.trace ++ [Event.registerProperty it.config
        (S.registerProperty hw.mServerSidePropStore it.config).2.ok] } h
  refine ⟨a, Event.registerProperty it.config
    (S.registerProperty hw.mServerSidePropStore it.config).2.ok :: rest, ?_, _, rest, rfl, h2⟩
  rw [h1]
  simp

theorem initLoop_trace (S : VehiclePropertyStore σ) (env : Env)
    (defaultConfigs : List ConfigDeclaration) (hw : FakeVehicleHardware σ)
    (h : hw.callbackInStore = false) :
    (defaultConfigs.foldl (initStep S env) hw).callbackInStore = false ∧
    ∃ blocks, (defaultConfigs.foldl (initStep S env) hw).trace = hw.trace ++ blocks.flatten ∧
      List.Forall₂ IsEntryBlock defaultConfigs blocks := by
  induction defaultConfigs generalizing hw with
  | nil => exact ⟨h, [], by simp, List.Forall₂.nil⟩
  | cons d ds ih =>
    obtain ⟨a, b, h1, h2⟩ := initStep_trace S env hw d h
    obtain ⟨a2, bs, h3, h4⟩ := ih (initStep S env hw d) a
    refine ⟨a2, b :: bs, ?_, List.Forall₂.cons h2 h4⟩
    simp only [List.foldl_cons, h3, h1, List.flatten_cons, List.append_assoc]

/-- The trace of `init`: one block per default configuration entry, in list
order, then the installation of the store callback. -/
theorem init_trace (S : VehiclePropertyStore σ) (env : Env)
    (defaultConfigs : List ConfigDeclaration) (hw : FakeVehicleHardware σ) :
    ∃ blocks, (init S env defaultConfigs hw).trace =
        hw.trace ++ blocks.flatten ++ [Event.setOnValueChangeCallback] ∧
      List.Forall₂ IsEntryBlock defaultConfigs blocks := by
  obtain ⟨_, blocks, h1, h2⟩ := initLoop_trace S env defaultConfigs
    { hw with mServerSidePropStore := S.create, callbackInStore := false } rfl
  refine ⟨blocks, ?_, h2⟩
  unfold init
  simp only [h1]

end Induction

section SpecStoreLemmas

variable {σ : Type}

theorem writeInitialValue_store (S : VehiclePropertyStore σ) (hw : FakeVehicleHardware σ)
    (prop : VehiclePropValue) :
    (writeInitialValue S hw prop).mServerSidePropStore =
      (S.writeValue hw.mServerSidePropStore prop true).store := by
  unfold writeInitialValue
  simp only [obtain]
  obtain ⟨h1, _⟩ := deliver_frame
    { hw with
      mServerSidePropStore := (S.writeValue hw.mServerSidePropStore prop true).store
      trace := hw.trace ++ [Event.writeValue prop true
        (S.writeValue hw.mServerSidePropStore prop true).result.ok] }
    (S.writeValue hw.mServerSidePropStore prop true).notified
  split <;> simp [h1]

/-- A write with `updateStatus = true` on the specified store is either rejected,
leaving the store as it was, or accepted, replacing the value at its key by the
written value with status `AVAILABLE`. -/
theorem SpecStore.writeValue_cases (g : Int → Bool)
    (vp : VehiclePropConfig → VehiclePropValue → Bool) (s : SpecStore) (v : VehiclePropValue) :
    ((SpecStore.writeValue g vp s v true).store = s ∧
      (SpecStore.writeValue g vp s v true).result.ok = false) ∨
    ((SpecStore.writeValue g vp s v true).store =
        { s with
          values := { v with status := VehiclePropertyStatus.AVAILABLE } ::
            s.values.filter
              (fun x => !(decide (x.prop = v.prop) && decide (x.areaId = v.areaId))) } ∧
      (SpecStore.writeValue g vp s v true).result.ok = true) := by
  unfold SpecStore.writeValue
  cases s.configs.find? (fun c => decide (c.prop = v.prop)) with
  | none => left; exact ⟨rfl, rfl⟩
  | some cfg =>
    simp only []
    generalize (if g v.prop = true then decide (v.areaId = 0)
      else cfg.areaConfigs.any fun a => decide (a.areaId = v.areaId)) = known
    cases known with
    | false => left; exact ⟨rfl, rfl⟩
    | true =>
      cases hvp : vp cfg v with
      | false => left; simp [StoreResult.ok]
      | true => right; simp [StoreResult.ok]

/-- What a write with `updateStatus = true` does to the specified store. -/
theorem SpecStore.writeValue_spec (g : Int → Bool)
    (vp : VehiclePropConfig → VehiclePropValue → Bool) (s : SpecStore) (v : VehiclePropValue) :
    (SpecStore.writeValue g vp s v true).store.configs = s.configs ∧
    ((∀ x ∈ s.values, x.status = VehiclePropertyStatus.AVAILABLE) →
      ∀ x ∈ (SpecStore.writeValue g vp s v true).store.values,
        x.status = VehiclePropertyStatus.AVAILABLE) ∧
    (∀ k a, (∃ x ∈ s.values, x.prop = k ∧ x.areaId = a) →
      ∃ x ∈ (SpecStore.writeValue g vp s v true).store.values, x.prop = k ∧ x.areaId = a) ∧
    ((SpecStore.writeValue g vp s v true).result.ok = true →
      ∃ x ∈ (SpecStore.writeValue g vp s v true).store.values,
        x.prop = v.prop ∧ x.areaId = v.areaId) := by
  rcases SpecStore.writeValue_cases g vp s v with ⟨h1, h2⟩ | ⟨h1, h2⟩
  · rw [h1, h2]
    exact ⟨rfl, fun h => h, fun _ _ h => h, by simp⟩
  · rw [h1]
    refine ⟨rfl, ?_, ?_, ?_⟩
    · intro h x hx
      simp only [List.mem_cons, List.mem_filter] at hx
      rcases hx with hx | hx
      · rw [hx]
      · exact h x hx.1
    · rintro k a ⟨x, hx, hk, ha⟩
      by_cases hkey : x.prop = v.prop ∧ x.areaId = v.areaId
      · refine ⟨{ v with status := VehiclePropertyStatus.AVAILABLE }, by simp, ?_, ?_⟩
        · simp [← hk, hkey.1]
        · simp [← ha, hkey.2]
      · refine ⟨x, ?_, hk, ha⟩
        simp only [List.mem_cons, List.mem_filter]
        right
        refine ⟨hx, ?_⟩
        have hkey2 : ¬x.prop = v.prop ∨ ¬x.areaId = v.areaId := by
          by_cases hp : x.prop = v.prop
          · exact Or.inr fun ha2 => hkey ⟨hp, ha2⟩
          · exact Or.inl hp
        simpa using hkey2
    · intro _
      exact ⟨{ v with status := VehiclePropertyStatus.AVAILABLE }, by simp, rfl, rfl⟩

/-- Seeding an entry leaves the registered configs of the specified store alone. -/
theorem storePropInitialValue_configs (g : Int → Bool)
    (vp : VehiclePropConfig → VehiclePropValue → Bool) (env : Env) (config : ConfigDeclaration)
    (hw : FakeVehicleHardware SpecStore) :
    (storePropInitialValue (specStore g vp) env config hw).mServerSidePropStore.configs =
      hw.mServerSidePropStore.configs := by
  refine storePropInitialValue_induction
    (fun x => x.mServerSidePropStore.configs = hw.mServerSidePropStore.configs)
    (specStore g vp) env config ?_ ?_ ?_ hw rfl
  · intro x hx; exact hx
  · intro x p _ hx
    rw [writeInitialValue_store]
    exact (SpecStore.writeValue_spec g vp x.mServerSidePropStore p).1.trans hx
  · intro x _ hx; exact hx

theorem initLoop_configs (g : Int → Bool)
    (vp : VehiclePropConfig → VehiclePropValue → Bool) (env : Env)
    (defaultConfigs : List ConfigDeclaration) (hw : FakeVehicleHardware SpecStore)
    (hnodup : (defaultConfigs.map fun d => d.config.prop).Nodup)
    (hfresh : ∀ d ∈ defaultConfigs, ∀ c ∈ hw.mServerSidePropStore.configs,
      c.prop ≠ d.config.prop) :
    (defaultConfigs.foldl (initStep (specStore g vp) env) hw).mServerSidePropStore.configs =
      hw.mServerSidePropStore.configs ++ defaultConfigs.map fun d => d.config := by
  induction defaultConfigs generalizing hw with
  | nil => simp
  | cons d ds ih =>
    have hstep : (initStep (specStore g vp) env hw d).mServerSidePropStore.configs =
        hw.mServerSidePropStore.configs ++ [d.config] := by
      unfold initStep
      simp only []
      rw [storePropInitialValue_configs]
      have hno : (hw.mServerSidePropStore.configs.any
          fun c => decide (c.prop = d.config.prop)) = false := by
        rw [List.any_eq_false]
        intro c hc
        simpa using hfresh d (by simp) c hc
      simp [specStore, SpecStore.registerProperty, hno]
    simp only [List.map_cons, List.nodup_cons, List.mem_map, not_exists, not_and] at hnodup
    simp only [List.foldl_cons]
    rw [ih (initStep (specStore g vp) env hw d) hnodup.2, hstep]
    · simp
    · intro e he c hc
      rw [hstep] at hc
      simp only [List.mem_append, List.mem_singleton] at hc
      rcases hc with hc | hc
      · exact hfresh e (by simp [he]) c hc
      · subst hc
        intro heq
        exact hnodup.1 e he heq.symm

/-- After `init` on the specified store, the registered configs are those of the
default configuration, in list order, when its property ids are distinct. -/
theorem init_configs (g : Int → Bool)
    (vp : VehiclePropConfig → VehiclePropValue → Bool) (env : Env)
    (defaultConfigs : List ConfigDeclaration) (hw : FakeVehicleHardware SpecStore)
    (hnodup : (defaultConfigs.map fun d => d.config.prop).Nodup) :
    getAllPropertyConfigs (specStore g vp) (init (specStore g vp) env defaultConfigs hw) =
      defaultConfigs.map fun d => d.config := by
  have h := initLoop_configs g vp env defaultConfigs
    { hw with mServerSidePropStore := (specStore g vp).create, callbackInStore := false }
    hnodup (by simp [specStore])
  unfold getAllPropertyConfigs init
  simp only [specStore] at h ⊢
  rw [h]
  simp

/-- Seeding keeps the store invariant while the store holds no callback. -/
theorem storePropInitialValue_seedInv (g : Int → Bool)
    (vp : VehiclePropConfig → VehiclePropValue → Bool) (env : Env) (config : ConfigDeclaration)
    (hw : FakeVehicleHardware SpecStore) (h : hw.callbackInStore = false) (hinv : SeedInv hw) :
    (storePropInitialValue (specStore g vp) env config hw).callbackInStore = false ∧
    SeedInv (storePropInitialValue (specStore g vp) env config hw) := by
  refine storePropInitialValue_induction
    (fun x => x.callbackInStore = false ∧ SeedInv x)
    (specStore g vp) env config ?_ ?_ ?_ hw ⟨h, hinv⟩
  · rintro x ⟨hx, h1, h2⟩
    exact ⟨hx, h1, h2⟩
  · rintro x p _ ⟨hx, h1, h2⟩
    rw [writeInitialValue_of_not_installed _ x p hx]
    refine ⟨hx, ?_⟩
    obtain ⟨_, s2, s3, s4⟩ := SpecStore.writeValue_spec g vp x.mServerSidePropStore p
    refine ⟨s2 h1, ?_⟩
    intro v us hv
    simp only [List.mem_append, List.mem_cons] at hv
    rcases hv with hv | hv | hv
    · exact s3 _ _ (h2 v us hv)
    · injection hv with e1 e2 e3
      subst e1
      exact s4 e3.symm
    · split at hv <;> simp at hv
  · rintro x a ⟨hx, h1, h2⟩
    refine ⟨hx, h1, ?_⟩
    intro v us hv
    simp only [List.mem_append, List.mem_singleton] at hv
    rcases hv with hv | hv
    · exact h2 v us hv
    · cases hv

theorem initLoop_seedInv (g : Int → Bool)
    (vp : VehiclePropConfig → VehiclePropValue → Bool) (env : Env)
    (defaultConfigs : List ConfigDeclaration) (hw : FakeVehicleHardware SpecStore)
    (h : hw.callbackInStore = false) (hinv : SeedInv hw) :
    SeedInv (defaultConfigs.foldl (initStep (specStore g vp) env) hw) := by
  induction defaultConfigs generalizing hw with
  | nil => simpa using hinv
  | cons d ds ih =>
    simp only [List.foldl_cons]
    have hreg : SeedInv
        { hw with
          mServerSidePropStore :=
            ((specStore g vp).registerProperty hw.mServerSidePropStore d.config).1
          trace := hw.trace ++ [Event.registerProperty d.config
            ((specStore g vp).registerProperty hw.mServerSidePropStore d.config).2.ok] } := by
      have hvals : ((specStore g vp).registerProperty hw.mServerSidePropStore d.config).1.values =
          hw.mServerSidePropStore.values := by
        simp only [specStore, SpecStore.registerProperty]
        split <;> rfl
      refine ⟨?_, ?_⟩
      · intro x hx
        rw [hvals] at hx
        exact hinv.1 x hx
      · intro v us hv
        simp only [List.mem_append, List.mem_singleton] at hv
        rcases hv with hv | hv
        · rw [hvals]; exact hinv.2 v us hv
        · cases hv
    obtain ⟨a, b⟩ := storePropInitialValue_seedInv g vp env d
      { hw with
        mServerSidePropStore :=
          ((specStore g vp).registerProperty hw.mServerSidePropStore d.config).1
        trace := hw.trace ++ [Event.registerProperty d.config
          ((specStore g vp).registerProperty hw.mServerSidePropStore d.config).2.ok] } h hreg
    exact ih (initStep (specStore g vp) env hw d) a b

/-- After construction over the specified store, every stored value is
`AVAILABLE` and every accepted seed write has a stored value at its key. -/
theorem construct_seedInv (g : Int → Bool)
    (vp : VehiclePropConfig → VehiclePropValue → Bool) (env : Env)
    (defaultConfigs : List ConfigDeclaration) :
    SeedInv (construct (specStore g vp) env defaultConfigs) := by
  have h := initLoop_seedInv g vp env defaultConfigs
    { mServerSidePropStore := (specStore g vp).create } rfl
    ⟨by simp [specStore], by simp⟩
  unfold construct init
  refine ⟨?_, ?_⟩
  · intro x hx
    exact h.1 x hx
  · intro v us hv
    simp only [List.mem_append, List.mem_singleton] at hv
    rcases hv with hv | hv
    · exact h.2 v us hv
    · cases hv

end SpecStoreLemmas

end FakeHw

/-! ## The claims about seeding -/

namespace FakeHw

/-- C1, as stated, fails.  For the per-area property 200 with declared areas 1
and 4, a non-empty global initial value and no per-area initial values,
`storePropInitialValue` issues a seed write for (200, 1) although
`initialAreaValues` has no entry for area 1. -/
theorem perArea_write_without_area_entry :
    sampleEnv.isGlobalProp perAreaNoAreaValues.config.prop = false ∧
    (1 : Int) ∈ perAreaNoAreaValues.config.areaConfigs.map (fun c => c.areaId) ∧
    ¬ ((∃ w ∈ writeCalls
          (storePropInitialValue acceptingStore sampleEnv perAreaNoAreaValues freshUnit).trace,
          w.1.prop = perAreaNoAreaValues.config.prop ∧ w.1.areaId = 1) ↔
        (perAreaNoAreaValues.initialAreaValues.lookup 1).isSome = true) := by
  decide

/-- C1 (amended).  For an entry whose property is per-area and an areaId declared
in its areaConfigs, `storePropInitialValue` issues a seed write for
(propertyId, areaId) with payload `p` exactly in two cases: `initialAreaValues`
is not empty and maps that areaId to `p`; or `initialAreaValues` is empty, the
global `initialValue` is not empty, and `p` is that `initialValue`.  So with
per-area values present, an area without an entry is skipped and the others are
written with their own entries. -/
theorem storePropInitialValue_perArea {σ : Type} (S : VehiclePropertyStore σ) (env : Env)
    (config : ConfigDeclaration) (hw : FakeVehicleHardware σ) (a : Int)
    (hper : env.isGlobalProp config.config.prop = false)
    (ha : a ∈ config.config.areaConfigs.map (fun c => c.areaId)) :
    ∃ issued,
      writeCalls (storePropInitialValue S env config hw).trace = writeCalls hw.trace ++ issued ∧
      ∀ p : RawPropValues,
        (∃ w ∈ issued, w.1.prop = config.config.prop ∧ w.1.areaId = a ∧ w.1.value = p) ↔
          if config.initialAreaValues.isEmpty then
            config.initialValue ≠ {} ∧ p = config.initialValue
          else config.initialAreaValues.lookup a = some p := by
  refine ⟨entryWrites env config hw.clockReads, (storePropInitialValue_frame S env config hw).2.2, ?_⟩
  intro p
  constructor
  · rintro ⟨w, hw1, _, hw3, hw4⟩
    obtain ⟨i, _, hs, _⟩ := (mem_entryWrites env config _ w).1 hw1
    obtain ⟨h1, h2⟩ := (seedValue_eq_some env config i _ w.1).1 hs
    have harea : areaAt env config i = a := by
      rw [h1] at hw3
      exact hw3
    rw [harea, hw4] at h2
    exact h2
  · intro h
    obtain ⟨i, hi, harea⟩ := (mem_areas_iff env config a hper).1 ha
    refine ⟨({ timestamp := env.elapsedRealtimeNano (hw.clockReads + i), areaId := a,
               prop := config.config.prop, value := p }, true), ?_, rfl, rfl, rfl⟩
    refine (mem_entryWrites env config _ _).2 ⟨i, hi, ?_, rfl⟩
    refine (seedValue_eq_some env config i _ _).2 ⟨?_, ?_⟩
    · simp [harea]
    · rw [harea]
      exact h

/-- C1 (amended), at a concrete input: property 201 with areas 1 and 4 and an
initial value for area 1 only, asked about area 4. -/
theorem storePropInitialValue_perArea_witness :
    sampleEnv.isGlobalProp perAreaOneMissing.config.prop = false ∧
    (4 : Int) ∈ perAreaOneMissing.config.areaConfigs.map (fun c => c.areaId) ∧
    ∃ issued,
      writeCalls (storePropInitialValue rejectingStore sampleEnv perAreaOneMissing
        freshUnit).trace = writeCalls freshUnit.trace ++ issued ∧
      ∀ p : RawPropValues,
        (∃ w ∈ issued, w.1.prop = perAreaOneMissing.config.prop ∧ w.1.areaId = 4 ∧
            w.1.value = p) ↔
          if perAreaOneMissing.initialAreaValues.isEmpty then
            perAreaOneMissing.initialValue ≠ {} ∧ p = perAreaOneMissing.initialValue
          else perAreaOneMissing.initialAreaValues.lookup 4 = some p :=
  ⟨by decide, by decide,
    storePropInitialValue_perArea rejectingStore sampleEnv perAreaOneMissing freshUnit 4
      (by decide) (by decide)⟩

/-- C2, as stated, fails.  For the global property 10 with an empty global
`initialValue` and a per-area initial value keyed by area 0,
`storePropInitialValue` issues a seed write at area 0, and its payload is the
per-area value. -/
theorem global_write_with_empty_initialValue :
    sampleEnv.isGlobalProp globalWithAreaValue.config.prop = true ∧
    ¬ ((∃ w ∈ writeCalls
          (storePropInitialValue acceptingStore sampleEnv globalWithAreaValue freshUnit).trace,
          w.1.areaId = 0) ↔
        globalWithAreaValue.initialValue ≠ {}) := by
  decide

/-- C2 (amended).  For an entry whose property is global, `storePropInitialValue`
issues at most one seed write, every write it issues targets areaId 0 and the
entry's propertyId whatever the declared areaConfigs are, and a write with
payload `p` is issued exactly in two cases: `initialAreaValues` is empty, the
global `initialValue` is not empty and `p` is that `initialValue`; or
`initialAreaValues` is not empty and maps areaId 0 to `p`. -/
theorem storePropInitialValue_global {σ : Type} (S : VehiclePropertyStore σ) (env : Env)
    (config : ConfigDeclaration) (hw : FakeVehicleHardware σ)
    (hglobal : env.isGlobalProp config.config.prop = true) :
    ∃ issued,
      writeCalls (storePropInitialValue S env config hw).trace = writeCalls hw.trace ++ issued ∧
      issued.length ≤ 1 ∧
      (∀ w ∈ issued, w.1.areaId = 0 ∧ w.1.prop = config.config.prop) ∧
      ∀ p : RawPropValues,
        (∃ w ∈ issued, w.1.value = p) ↔
          if config.initialAreaValues.isEmpty then
            config.initialValue ≠ {} ∧ p = config.initialValue
          else config.initialAreaValues.lookup 0 = some p := by
  refine ⟨entryWrites env config hw.clockReads, (storePropInitialValue_frame S env config hw).2.2,
    ?_, ?_, ?_⟩
  · unfold entryWrites numAreas
    simp only [hglobal, if_true, List.range_succ, List.range_zero, List.nil_append,
      List.flatMap_cons, List.flatMap_nil, List.append_nil, List.length_map]
    cases seedValue env config 0 (hw.clockReads + 0) <;> simp
  · intro w hw1
    obtain ⟨i, _, hs, _⟩ := (mem_entryWrites env config _ w).1 hw1
    obtain ⟨h1, _⟩ := (seedValue_eq_some env config i _ w.1).1 hs
    rw [areaAt_of_global env config i hglobal] at h1
    rw [h1]
    exact ⟨rfl, rfl⟩
  · intro p
    constructor
    · rintro ⟨w, hw1, hw2⟩
      obtain ⟨i, _, hs, _⟩ := (mem_entryWrites env config _ w).1 hw1
      obtain ⟨_, h2⟩ := (seedValue_eq_some env config i _ w.1).1 hs
      rw [areaAt_of_global env config i hglobal, hw2] at h2
      exact h2
    · intro h
      refine ⟨({ timestamp := env.elapsedRealtimeNano (hw.clockReads + 0), areaId := 0,
                 prop := config.config.prop, value := p }, true), ?_, rfl⟩
      refine (mem_entryWrites env config _ _).2 ⟨0, by simp [numAreas, hglobal], ?_, rfl⟩
      refine (seedValue_eq_some env config 0 _ _).2 ⟨?_, ?_⟩
      · simp [areaAt_of_global env config 0 hglobal]
      · rw [areaAt_of_global env config 0 hglobal]
        exact h

/-- C2 (amended), at a concrete input: the global property 11 with a global
initial value and no per-area values. -/
theorem storePropInitialValue_global_witness :
    sampleEnv.isGlobalProp globalPlain.config.prop = true ∧
    ∃ issued,
      writeCalls (storePropInitialValue acceptingStore sampleEnv globalPlain freshUnit).trace =
        writeCalls freshUnit.trace ++ issued ∧
      issued.length ≤ 1 ∧
      (∀ w ∈ issued, w.1.areaId = 0 ∧ w.1.prop = globalPlain.config.prop) ∧
      ∀ p : RawPropValues,
        (∃ w ∈ issued, w.1.value = p) ↔
          if globalPlain.initialAreaValues.isEmpty then
            globalPlain.initialValue ≠ {} ∧ p = globalPlain.initialValue
          else globalPlain.initialAreaValues.lookup 0 = some p :=
  ⟨by decide,
    storePropInitialValue_global acceptingStore sampleEnv globalPlain freshUnit (by decide)⟩

end FakeHw

/-! ## The claims about the batch entry points and the callbacks -/

namespace FakeHw

/-- C3: what the code does at every input.  `setValues` and `getValues` return
`StatusCode::OK` and do nothing else: the adapter state, and with it the trace of
callback invocations, is the one they were given, so the completion callback is
never invoked, whatever the batch. -/
theorem setValues_getValues_only_return_ok {σ : Type} (hw : FakeVehicleHardware σ)
    (callback : Nat) (sets : List SetValueRequest) (gets : List GetValueRequest) :
    setValues hw callback sets = (hw, StatusCode.OK) ∧
    getValues hw callback gets = (hw, StatusCode.OK) ∧
    (setValues hw callback sets).1.trace.filter Event.isCompletion =
      hw.trace.filter Event.isCompletion ∧
    (getValues hw callback gets).1.trace.filter Event.isCompletion =
      hw.trace.filter Event.isCompletion :=
  ⟨rfl, rfl, rfl, rfl⟩

theorem getLast?_cons_getD {α : Type} (a b : α) (l : List α) :
    ((a :: l).getLast?).getD b = (l.getLast?).getD a := by
  cases l with
  | nil => rfl
  | cons c l =>
    simp [List.getLast?_cons_cons, List.getLast?_eq_getLast _ (List.cons_ne_nil c l)]

/-- Registrations touch nothing but the two callback fields; the property-change
callback ends up as the argument of the most recent property-change registration. -/
theorem register_foldl {σ : Type} (regs : List Registration) (hw : FakeVehicleHardware σ) :
    (regs.foldl register hw).mOnPropertyChangeCallback =
      currentPropertyChange hw.mOnPropertyChangeCallback regs ∧
    (regs.foldl register hw).trace = hw.trace ∧
    (regs.foldl register hw).mServerSidePropStore = hw.mServerSidePropStore := by
  induction regs generalizing hw with
  | nil => exact ⟨rfl, rfl, rfl⟩
  | cons r rs ih =>
    obtain ⟨h1, h2, h3⟩ := ih (register hw r)
    simp only [List.foldl_cons]
    refine ⟨?_, ?_, ?_⟩
    · rw [h1]
      cases r with
      | propertyChange cb =>
        simp only [currentPropertyChange, propertyChangeArgs, List.filterMap_cons]
        rw [getLast?_cons_getD]
        rfl
      | propertySetError cb =>
        simp [currentPropertyChange, propertyChangeArgs, register,
          registerOnPropertySetErrorEvent]
    · rw [h2]; cases r <;> rfl
    · rw [h3]; cases r <;> rfl

/-- C4.  After any sequence of calls to `registerOnPropertyChangeEvent` and
`registerOnPropertySetErrorEvent` on an adapter, `onValueChangeCallback v`
appends exactly one invocation to the trace when the most recently registered
property-change callback `cb` is not empty, namely `cb` called with the
single-element batch `[v]`, and changes nothing else; when that callback is
empty, or none was registered on a new adapter, it returns the adapter state as
it was.  No replaced callback and no set-error callback is invoked, and the
registrations themselves invoke nothing. -/
theorem onValueChangeCallback_forwards_to_latest {σ : Type} (hw : FakeVehicleHardware σ)
    (regs : List Registration) (v : VehiclePropValue) :
    (regs.foldl register hw).trace = hw.trace ∧
    onValueChangeCallback (regs.foldl register hw) v =
      match currentPropertyChange hw.mOnPropertyChangeCallback regs with
      | some cb =>
        { regs.foldl register hw with
          trace := (regs.foldl register hw).trace ++ [Event.propertyChange cb [v]] }
      | none => regs.foldl register hw := by
  obtain ⟨h1, h2, _⟩ := register_foldl regs hw
  refine ⟨h2, ?_⟩
  rw [← h1]
  generalize regs.foldl register hw = x
  unfold onValueChangeCallback
  rcases x with ⟨s, f, c, e, n, t⟩
  cases c <;> rfl

end FakeHw

/-! ## The claims about the connector and the fingerprint stub -/

namespace V2_0

/-- C7.  For every passthrough connector, every object state and every value
`v`: `getAllPropertyConfig()` returns the list `onGetAllPropertyConfig()` returns;
`setProperty(v)` returns the status code of `onSetProperty(v)` and leaves the
state `onSetProperty(v)` leaves; `onPropertyValueFromCar(v)` leaves the state
`onPropertyValue(v)` leaves; and each of the three dispatches exactly one call,
to its handler, with the same `v`. -/
theorem passthrough_is_identity {σ Cfg Val : Type} (c : IPassThroughConnector σ Cfg Val)
    (self : Object σ Val) (v : Val) :
    (c.getAllPropertyConfig self).2 = c.onGetAllPropertyConfig self.state ∧
    (c.getAllPropertyConfig self).1.state = self.state ∧
    (c.getAllPropertyConfig self).1.calls = self.calls ++ [Call.onGetAllPropertyConfig] ∧
    (c.setProperty self v).2 = (c.onSetProperty self.state v).2 ∧
    (c.setProperty self v).1.state = (c.onSetProperty self.state v).1 ∧
    (c.setProperty self v).1.calls = self.calls ++ [Call.onSetProperty v] ∧
    (c.onPropertyValueFromCar self v).state = c.onPropertyValue self.state v ∧
    (c.onPropertyValueFromCar self v).calls = self.calls ++ [Call.onPropertyValue v] :=
  ⟨rfl, rfl, rfl, rfl, rfl, rfl, rfl, rfl⟩

end V2_0

namespace Fingerprint

/-- C8.  `getSensorProps` returns an ok status and, whatever the output list held
before, sets it to exactly one `SensorProps`: sensorId 1, strength `STRONG`,
5 enrollments per user, one hardware info entry ("fingerprintSensor",
"vendor/model/revision", "1.01", "00000001"), type `REAR`, one sensor location
with all fields 0, navigation gestures supported, detect-interaction not
supported.  `createSession` returns an ok status and a non-null session for every
sensorId and userId. -/
theorem getSensorProps_static_and_createSession_ok (out : List SensorProps)
    (sensorId userId : Int) (cb : Option Nat) (session : Option Session) :
    getSensorProps out =
      (ScopedAStatus.ok,
        [{ commonProps :=
            { sensorId := 1
              sensorStrength := SensorStrength.STRONG
              maxEnrollmentsPerUser := 5
              hardwareInfo :=
                [{ deviceName := "fingerprintSensor"
                   hardwareVersion := "vendor/model/revision"
                   firmwareVersion := "1.01"
                   serialNumber := "00000001" }] }
           sensorType := FingerprintSensorType.REAR
           sensorLocations :=
            [{ displayId := 0, sensorLocationX := 0, sensorLocationY := 0, sensorRadius := 0 }]
           supportsNavigationGestures := true
           supportsDetectInteraction := false }]) ∧
    (createSession sensorId userId cb session).1 = ScopedAStatus.ok ∧
    (createSession sensorId userId cb session).2.isSome = true :=
  ⟨rfl, rfl, rfl⟩

end Fingerprint

/-! ## The claims about `init` -/

namespace FakeHw

theorem registerCalls_append (a b : List Event) :
    registerCalls (a ++ b) = registerCalls a ++ registerCalls b := by
  simp [registerCalls, List.filterMap_append]

theorem registerCalls_block (d : ConfigDeclaration) (b : List Event) (h : IsEntryBlock d b) :
    registerCalls b = [d.config] := by
  obtain ⟨ok, rest, rfl, hrest⟩ := h
  have hnone : registerCalls rest = [] := by
    unfold registerCalls
    rw [List.filterMap_eq_nil_iff]
    intro e he
    have := hrest e he
    cases e <;> simp [Event.isSeedOf] at this <;> rfl
  simp only [registerCalls, List.filterMap_cons, Event.asRegister] at hnone ⊢
  rw [hnone]

theorem registerCalls_blocks (ds : List ConfigDeclaration) (blocks : List (List Event))
    (h : List.Forall₂ IsEntryBlock ds blocks) :
    registerCalls blocks.flatten = ds.map fun d => d.config := by
  induction h with
  | nil => rfl
  | cons hb _ ih =>
    simp only [List.flatten_cons, registerCalls_append, List.map_cons, ih]
    rw [registerCalls_block _ _ hb]
    rfl

/-- C6.  The trace of `init` is one block per default configuration entry, in list
order, each block being the entry's `registerProperty` call followed only by seed
events of that entry, and then the installation of the store callback; so
`registerProperty` is called exactly once per entry, in list order, before that
entry's seed writes.  With a store that fails duplicate registrations and returns
configs in registration order, and pairwise distinct property ids,
`getAllPropertyConfigs` after `init` returns the configs of the default
configuration in list order. -/
theorem init_registers_each_entry_in_order {σ : Type} (S : VehiclePropertyStore σ) (env : Env)
    (defaultConfigs : List ConfigDeclaration) (hw : FakeVehicleHardware σ)
    (g : Int → Bool) (vp : VehiclePropConfig → VehiclePropValue → Bool)
    (hws : FakeVehicleHardware SpecStore) :
    (∃ blocks,
      (init S env defaultConfigs hw).trace =
        hw.trace ++ blocks.flatten ++ [Event.setOnValueChangeCallback] ∧
      List.Forall₂ IsEntryBlock defaultConfigs blocks) ∧
    registerCalls (init S env defaultConfigs hw).trace =
      registerCalls hw.trace ++ defaultConfigs.map (fun d => d.config) ∧
    ((defaultConfigs.map fun d => d.config.prop).Nodup →
      getAllPropertyConfigs (specStore g vp) (init (specStore g vp) env defaultConfigs hws) =
        defaultConfigs.map fun d => d.config) := by
  obtain ⟨blocks, h1, h2⟩ := init_trace S env defaultConfigs hw
  refine ⟨⟨blocks, h1, h2⟩, ?_, init_configs g vp env defaultConfigs hws⟩
  rw [h1, registerCalls_append, registerCalls_append, registerCalls_blocks _ _ h2]
  simp [registerCalls, Event.asRegister]

/-- C6 at a concrete input: the sample default configuration, whose property ids
200, 11, 201 are distinct, on the specified store. -/
theorem init_registers_each_entry_in_order_witness :
    (sampleConfigs.map fun d => d.config.prop).Nodup ∧
    getAllPropertyConfigs (specStore sampleEnv.isGlobalProp anyPayload)
        (init (specStore sampleEnv.isGlobalProp anyPayload) sampleEnv sampleConfigs freshSpec) =
      sampleConfigs.map fun d => d.config :=
  ⟨by decide,
    (init_registers_each_entry_in_order acceptingStore sampleEnv sampleConfigs freshUnit
      sampleEnv.isGlobalProp anyPayload freshSpec).2.2 (by decide)⟩

/-- C9.  Every seed write `storePropInitialValue` issues for an entry carries the
entry's propertyId and `updateStatus = true`, and the areaIds of the writes are,
in order, among the areas iterated: area 0 alone for a global property, the
declared areas otherwise.  Hence, over a store that follows the specification,
after construction every stored value has status `AVAILABLE`, and every seed write
the store accepted has a stored value with status `AVAILABLE` at its
(propertyId, areaId). -/
theorem seed_writes_force_available {σ : Type} (S : VehiclePropertyStore σ) (env : Env)
    (config : ConfigDeclaration) (hw : FakeVehicleHardware σ)
    (g : Int → Bool) (vp : VehiclePropConfig → VehiclePropValue → Bool)
    (defaultConfigs : List ConfigDeclaration) :
    (∃ issued,
      writeCalls (storePropInitialValue S env config hw).trace = writeCalls hw.trace ++ issued ∧
      (∀ w ∈ issued, w.1.prop = config.config.prop ∧ w.2 = true) ∧
      List.Sublist (issued.map fun w => w.1.areaId)
        (if env.isGlobalProp config.config.prop then [0]
          else config.config.areaConfigs.map fun c => c.areaId)) ∧
    (∀ x ∈ (construct (specStore g vp) env defaultConfigs).mServerSidePropStore.values,
      x.status = VehiclePropertyStatus.AVAILABLE) ∧
    ∀ v updateStatus,
      Event.writeValue v updateStatus true ∈
          (construct (specStore g vp) env defaultConfigs).trace →
        ∃ x ∈ (construct (specStore g vp) env defaultConfigs).mServerSidePropStore.values,
          x.prop = v.prop ∧ x.areaId = v.areaId ∧
            x.status = VehiclePropertyStatus.AVAILABLE := by
  refine ⟨⟨entryWrites env config hw.clockReads,
    (storePropInitialValue_frame S env config hw).2.2, ?_, ?_⟩, ?_, ?_⟩
  · intro w hw1
    obtain ⟨i, _, hs, hu⟩ := (mem_entryWrites env config _ w).1 hw1
    obtain ⟨h1, _⟩ := (seedValue_eq_some env config i _ w.1).1 hs
    rw [h1]
    exact ⟨rfl, hu⟩
  · rw [← range_map_areaAt]
    exact entryWrites_areas_sublist env config hw.clockReads
  · exact (construct_seedInv g vp env defaultConfigs).1
  · intro v us hv
    obtain ⟨x, hx, h1, h2⟩ := (construct_seedInv g vp env defaultConfigs).2 v us hv
    exact ⟨x, hx, h1, h2, (construct_seedInv g vp env defaultConfigs).1 x hx⟩

/-- C9 at a concrete input: the seed write for (201, 1) of the sample default
configuration, accepted by the specified store, has a stored value that is
`AVAILABLE`. -/
theorem seed_writes_force_available_witness :
    ∃ x ∈ (construct (specStore sampleEnv.isGlobalProp anyPayload) sampleEnv
        sampleConfigs).mServerSidePropStore.values,
      x.prop = 201 ∧ x.areaId = 1 ∧ x.status = VehiclePropertyStatus.AVAILABLE :=
  (seed_writes_force_available acceptingStore sampleEnv globalPlain freshUnit
    sampleEnv.isGlobalProp anyPayload sampleConfigs).2.2
    { timestamp := 1003, areaId := 1, prop := 201, value := { int32Values := [3] } } true
    (by decide)

/-- C10.  The trace `init` adds is the seeding of all entries followed by the
installation of the store's value-change callback, which is its last event; no
event of the seeding enters `onValueChangeCallback` or invokes a registered
callback, whatever the store does and whatever callback is registered on the
adapter; and once `init` returns the store holds the callback. -/
theorem init_forwards_no_event {σ : Type} (S : VehiclePropertyStore σ) (env : Env)
    (defaultConfigs : List ConfigDeclaration) (hw : FakeVehicleHardware σ) :
    ∃ seeding,
      (init S env defaultConfigs hw).trace =
        hw.trace ++ seeding ++ [Event.setOnValueChangeCallback] ∧
      (∀ e ∈ seeding, e.isCallback = false ∧ e ≠ Event.setOnValueChangeCallback) ∧
      (init S env defaultConfigs hw).callbackInStore = true := by
  obtain ⟨blocks, h1, h2⟩ := init_trace S env defaultConfigs hw
  refine ⟨blocks.flatten, h1, ?_, rfl⟩
  intro e he
  obtain ⟨b, hb, heb⟩ := List.mem_flatten.1 he
  obtain ⟨d, _, hd⟩ : ∃ d, d ∈ defaultConfigs ∧ IsEntryBlock d b := by
    clear h1 he
    induction h2 with
    | nil => simp at hb
    | cons hb1 _ ih =>
      simp only [List.mem_cons] at hb
      rcases hb with hb | hb
      · subst hb; exact ⟨_, by simp, hb1⟩
      · obtain ⟨d, hd1, hd2⟩ := ih hb
        exact ⟨d, by simp [hd1], hd2⟩
  obtain ⟨ok, rest, rfl, hrest⟩ := hd
  simp only [List.mem_cons] at heb
  rcases heb with heb | heb
  · subst heb
    exact ⟨rfl, by simp⟩
  · have := hrest e heb
    cases e <;> simp [Event.isSeedOf] at this <;> exact ⟨rfl, by simp⟩

end FakeHw
